import Mathlib

/-!
Shallow embedding of the RSS feed-refresh and article-deduplication
subsystem of the AI-newsletter SaaS repository, together with proofs of the
behavioral claims made about it.

The embedding models the two MongoDB collections the subsystem mutates
(`RssFeed` and `RssArticle`) as Lean lists of documents, and each server
action as a pure state transformer on them.  Timestamps are milliseconds
since the epoch, represented as `Int`; Mongo ObjectIds are represented by
the strings the TypeScript code converts them from and to.  Network and
low-level database failures, which the code observes only through thrown
exceptions, enter the model as explicit outcome parameters (`Except`
values), so a theorem quantifying over them covers every failure pattern
the code can encounter.
-/

namespace RssSpec

/-- Cache window for RSS feeds, 3 hours in milliseconds: the constant
`CACHE_WINDOW` of `src/lib/rss/feed-refresh.ts`. -/
def CACHE_WINDOW : Int := 3 * 60 * 60 * 1000

/-- Maximum number of articles fetched for newsletter generation: the
constant `ARTICLE_LIMIT` of `src/lib/rss/feed-refresh.ts`. -/
def ARTICLE_LIMIT : Nat := 100

/-- One document of the `RssFeed` collection.  `lastFetched` is `none`
until the first successful fetch (the code stores no value for it on
insertion); the metadata fields are populated by `validateAndAddFeed` and
are irrelevant to staleness. -/
structure RssFeedDoc where
  id : String
  userId : String
  url : String
  title : Option String := none
  description : Option String := none
  link : Option String := none
  imageUrl : Option String := none
  language : Option String := none
  lastFetched : Option Int := none
  createdAt : Int := 0
  updatedAt : Int := 0
  deriving DecidableEq

/-- One document of the `RssArticle` collection, with the fields
`createRssArticle` writes on insertion.  `feedId` is the primary feed (the
feed that first produced the article) and `sourceFeedIds` the set of all
feeds that have produced its guid. -/
structure RssArticleDoc where
  feedId : String
  guid : String
  sourceFeedIds : List String
  title : String
  link : String
  content : Option String := none
  summary : Option String := none
  pubDate : Int
  author : Option String := none
  categories : List String := []
  imageUrl : Option String := none
  createdAt : Int := 0
  updatedAt : Int := 0
  deriving DecidableEq

/-- Payload of `createRssArticle` (the `ArticleCreateData` shape used by
the RSS article actions). -/
structure ArticleCreateData where
  feedId : String
  guid : String
  title : String
  link : String
  content : Option String := none
  summary : Option String := none
  pubDate : Int
  author : Option String := none
  categories : List String := []
  imageUrl : Option String := none
  deriving DecidableEq

/-- Counters returned by `bulkCreateRssArticles` (the
`BulkOperationResult` shape). -/
structure BulkOperationResult where
  created : Nat
  skipped : Nat
  errors : Nat
  deriving DecidableEq

/-- A failure thrown by one persistence call, as observed by the `catch`
in `bulkCreateRssArticles`: `isErrorInstance` models the JavaScript
`instanceof Error` test and `code` the optional numeric MongoDB error code
(11000 is the duplicate-key code). -/
structure DbFailure where
  isErrorInstance : Bool
  code : Option Int
  deriving DecidableEq

/-- Feed-level metadata parsed from the RSS document by the feed source
adapter. -/
structure FeedMetadata where
  title : Option String := none
  description : Option String := none
  link : Option String := none
  imageUrl : Option String := none
  language : Option String := none
  deriving DecidableEq

/-- The two collections mutated by the refresh subsystem. -/
structure DbState where
  rssFeeds : List RssFeedDoc
  rssArticles : List RssArticleDoc
  deriving DecidableEq

/-- Decidable equality for `Except`, needed to evaluate concrete outcomes
of the modelled operations. -/
instance {ε α : Type} [DecidableEq ε] [DecidableEq α] :
    DecidableEq (Except ε α) := fun a b =>
  match a, b with
  | .error e, .error e' =>
    if h : e = e' then .isTrue (by rw [h]) else .isFalse (by simp [h])
  | .error _, .ok _ => .isFalse (by simp)
  | .ok _, .error _ => .isFalse (by simp)
  | .ok v, .ok v' =>
    if h : v = v' then .isTrue (by rw [h]) else .isFalse (by simp [h])

/-- Mongo `$addToSet`: append a value to an array field unless it is
already present. -/
def addToSet (xs : List String) (x : String) : List String :=
  if x ∈ xs then xs else xs ++ [x]

/-- Mongo `findOneAndUpdate` with filter `{ guid }`: rewrite the first
document matching the guid, leaving the rest unchanged. -/
def updateFirstByGuid (guid : String) (f : RssArticleDoc → RssArticleDoc) :
    List RssArticleDoc → List RssArticleDoc
  | [] => []
  | a :: rest =>
    if a.guid = guid then f a :: rest
    else a :: updateFirstByGuid guid f rest

/-- The document `insertOne` writes for a brand-new guid:
`sourceFeedIds = [feedId]`, `feedId` as primary feed, all payload fields
copied, both timestamps set to `now`. -/
def newArticleDoc (now : Int) (data : ArticleCreateData) : RssArticleDoc :=
  { feedId := data.feedId, guid := data.guid,
    sourceFeedIds := [data.feedId], title := data.title,
    link := data.link, content := data.content,
    summary := data.summary, pubDate := data.pubDate,
    author := data.author, categories := data.categories,
    imageUrl := data.imageUrl, createdAt := now, updatedAt := now }

/-- State-level semantics of `createRssArticle` (RSS article actions):
look the article up by guid; if it exists and the feed id is already in
`sourceFeedIds`, change nothing; if it exists without the feed id,
`$addToSet` the feed id; otherwise insert a fresh document with
`sourceFeedIds = [feedId]` and `feedId` as primary feed.  Returns the
updated `RssArticle` collection. -/
def createRssArticle (now : Int) (data : ArticleCreateData)
    (store : List RssArticleDoc) : List RssArticleDoc :=
  match store.find? (fun a => a.guid == data.guid) with
  | some existing =>
    if data.feedId ∈ existing.sourceFeedIds then store
    else
      updateFirstByGuid data.guid
        (fun a => { a with sourceFeedIds := addToSet a.sourceFeedIds data.feedId })
        store
  | none => store ++ [newArticleDoc now data]

/-- `createRssArticle` under interference from a concurrent writer: the
initial `findOne` reads `storeAtRead` while the later operations run
against `storeAtWrite`.  When the guid was absent at read time but present
at write time, the unique index on `guid` rejects `insertOne` with MongoDB
error code 11000 and nothing is written; `createRssArticle` has no handler
for that error, so it propagates to the caller. -/
def createRssArticleRaced (now : Int) (data : ArticleCreateData)
    (storeAtRead storeAtWrite : List RssArticleDoc) :
    Except DbFailure (List RssArticleDoc) :=
  match storeAtRead.find? (fun a => a.guid == data.guid) with
  | some existing =>
    if data.feedId ∈ existing.sourceFeedIds then .ok storeAtWrite
    else
      .ok (updateFirstByGuid data.guid
        (fun a => { a with sourceFeedIds := addToSet a.sourceFeedIds data.feedId })
        storeAtWrite)
  | none =>
    if storeAtWrite.any (fun a => a.guid == data.guid) then
      .error { isErrorInstance := true, code := some 11000 }
    else .ok (storeAtWrite ++ [newArticleDoc now data])

/-- One `createRssArticle` database call as seen by the
`bulkCreateRssArticles` loop: given the payload and the current collection
it either returns the updated collection or throws a `DbFailure`.  The
pure sequential semantics is `fun a s => Except.ok (createRssArticle now a s)`;
a call hitting the insert race of `createRssArticleRaced`, or any other
database failure, is another instance. -/
abbrev IngestOp : Type :=
  ArticleCreateData → List RssArticleDoc → Except DbFailure (List RssArticleDoc)

/-- `bulkCreateRssArticles` (RSS article actions): loop over the payloads,
calling `createRssArticle` on each inside a `try`/`catch`; a success
increments `created`; a caught failure that is an `Error` instance with
MongoDB code 11000 increments `skipped`, any other caught failure
increments `errors`.  The function is total: no per-article failure
escapes the loop. -/
def bulkCreateRssArticles (ingest : IngestOp) :
    List ArticleCreateData → List RssArticleDoc →
    BulkOperationResult × List RssArticleDoc
  | [], store => ({ created := 0, skipped := 0, errors := 0 }, store)
  | a :: rest, store =>
    match ingest a store with
    | .ok store2 =>
      let r := bulkCreateRssArticles ingest rest store2
      ({ r.1 with created := r.1.created + 1 }, r.2)
    | .error e =>
      let r := bulkCreateRssArticles ingest rest store
      if e.isErrorInstance && e.code == some 11000 then
        ({ r.1 with skipped := r.1.skipped + 1 }, r.2)
      else
        ({ r.1 with errors := r.1.errors + 1 }, r.2)

/-- Outcome trace of `bulkCreateRssArticles`: the per-payload result of
each `createRssArticle` call in loop order (`none` for a success, `some e`
for the failure caught by the handler). -/
def bulkTrace (ingest : IngestOp) :
    List ArticleCreateData → List RssArticleDoc → List (Option DbFailure)
  | [], _ => []
  | a :: rest, store =>
    match ingest a store with
    | .ok store2 => none :: bulkTrace ingest rest store2
    | .error e => some e :: bulkTrace ingest rest store

/-- Does a caught per-article outcome count as a MongoDB duplicate-key
failure for the `bulkCreateRssArticles` handler? -/
def isDupFailure : Option DbFailure → Bool
  | some e => e.isErrorInstance && e.code == some 11000
  | none => false

/-- Does a caught per-article outcome count as a non-duplicate failure for
the `bulkCreateRssArticles` handler? -/
def isOtherFailure : Option DbFailure → Bool
  | some e => !(e.isErrorInstance && e.code == some 11000)
  | none => false

/-- Greatest element of a list of timestamps, `none` when the list is
empty; models the `$max` accumulator of the aggregation in
`getFeedsToRefresh`. -/
def maxOfList : List Int → Option Int
  | [] => none
  | t :: ts =>
    match maxOfList ts with
    | none => some t
    | some m => some (max t m)

/-- The `$match`/`$group` aggregation of `getFeedsToRefresh`: over all
feed documents (across all accounts) whose `url` equals `u` and whose
`lastFetched` is a date at or after `cacheThreshold`, the maximal
`lastFetched`; `none` when no document matches.  A missing or null
`lastFetched` never satisfies the `$gte` date comparison. -/
def maxRecentFetch (cacheThreshold : Int) (feedsCol : List RssFeedDoc)
    (u : String) : Option Int :=
  maxOfList (feedsCol.filterMap fun r =>
    if r.url == u then
      match r.lastFetched with
      | some t => if cacheThreshold ≤ t then some t else none
      | none => none
    else none)

/-- Claim-side quantity for the freshness rule: the maximal `lastFetched`
over all feed documents (across all accounts) sharing the url `u`,
ignoring documents that have never been fetched. -/
def maxLastFetchedFor (feedsCol : List RssFeedDoc) (u : String) : Option Int :=
  maxOfList (feedsCol.filterMap fun r =>
    if r.url == u then r.lastFetched else none)

/-- `getFeedsToRefresh` (`src/lib/rss/feed-refresh.ts`): resolve the
requested feed ids to their documents, collect their distinct urls, mark a
url as recently fetched when some feed document sharing it (in any
account) has `lastFetched` at or after `now - CACHE_WINDOW`, and return
the ids of the requested feeds whose url is not recently fetched. -/
def getFeedsToRefresh (now : Int) (feedIds : List String)
    (feedsCol : List RssFeedDoc) : List String :=
  let cacheThreshold := now - CACHE_WINDOW
  let feeds := feedsCol.filter (fun f => feedIds.contains f.id)
  let urlsToCheck := (feeds.map (fun f => f.url)).dedup
  let recentlyFetchedUrls := urlsToCheck.filter
    (fun u => (maxRecentFetch cacheThreshold feedsCol u).isSome)
  (feeds.filter (fun f => !(recentlyFetchedUrls.contains f.url))).map
    (fun f => f.id)

/-- `updateFeedLastFetched` (`src/actions/rss-feed.ts`): `findOneAndUpdate`
setting `lastFetched` on the (unique) feed document with the given id. -/
def updateFeedLastFetched (now : Int) (feedId : String) :
    List RssFeedDoc → List RssFeedDoc
  | [] => []
  | f :: rest =>
    if f.id = feedId then { f with lastFetched := some now } :: rest
    else f :: updateFeedLastFetched now feedId rest

/-- Value returned by a successful `fetchAndStoreFeed` call: the parsed
feed metadata and the bulk-ingestion counters. -/
structure FetchStoreResult where
  metadata : FeedMetadata
  created : Nat
  skipped : Nat
  errors : Nat
  deriving DecidableEq

/-- `fetchAndStoreFeed` (RSS fetch actions): look the feed up (throwing if
it does not exist), run `fetchAndParseFeed` on its url (the network
fetch-and-parse outcome is a parameter, this layer has no retry), attach
the feed id to every parsed article, store them all through
`bulkCreateRssArticles`, and finally update the feed's `lastFetched`.  The
returned pair is the thrown-or-returned value together with the database
state after the call; every failing step precedes every write, so an error
outcome carries the state unchanged. -/
def fetchAndStoreFeed (now : Int)
    (fetchOutcome : Except String (FeedMetadata × List ArticleCreateData))
    (ingest : IngestOp) (feedId : String) (st : DbState) :
    Except String FetchStoreResult × DbState :=
  match st.rssFeeds.find? (fun f => f.id == feedId) with
  | none => (.error ("Feed with ID " ++ feedId ++ " not found"), st)
  | some _ =>
    match fetchOutcome with
    | .error e => (.error e, st)
    | .ok (md, articles) =>
      let articlesToCreate := articles.map (fun a => { a with feedId := feedId })
      let r := bulkCreateRssArticles ingest articlesToCreate st.rssArticles
      let feeds2 := updateFeedLastFetched now feedId st.rssFeeds
      (.ok { metadata := md, created := r.1.created, skipped := r.1.skipped,
             errors := r.1.errors },
       { rssFeeds := feeds2, rssArticles := r.2 })

/-- Did a settled promise fulfill?  Models the `r.status === "fulfilled"`
test of `prepareFeedsAndArticles`. -/
def isFulfilled (r : Except String FetchStoreResult) : Bool :=
  match r with
  | .ok _ => true
  | .error _ => false

/-- `Promise.allSettled(feedsToRefresh.map(fetchAndStoreFeed))`: run every
per-feed refresh, collect each feed's settled outcome, and never
short-circuit on a rejection.  The claims are about the collected outcomes
and final state, not interleavings, so the refreshes are modelled
sequentially; `fetchOutcome` gives each feed's fetch-and-parse result. -/
def refreshAllSettled (now : Int)
    (fetchOutcome : String → Except String (FeedMetadata × List ArticleCreateData))
    (ingest : IngestOp) :
    List String → DbState → List (Except String FetchStoreResult) × DbState
  | [], st => ([], st)
  | f :: rest, st =>
    let r := fetchAndStoreFeed now (fetchOutcome f) ingest f st
    let rs := refreshAllSettled now fetchOutcome ingest rest r.2
    (r.1 :: rs.1, rs.2)

/-- Parameters of `prepareFeedsAndArticles` (the `PrepareFeedsParams`
shape). -/
structure PrepareFeedsParams where
  feedIds : List String
  startDate : Int
  endDate : Int

/-- The per-refresh summary logged by `prepareFeedsAndArticles`: the
number of fulfilled and of rejected per-feed refreshes. -/
structure RefreshSummary where
  successful : Nat
  failed : Nat
  deriving DecidableEq

/-- One row returned by `getArticlesByFeedsAndDateRange`: the stored
document together with the derived `sourceCount` and the looked-up primary
feed document (`none` when that feed no longer exists). -/
structure ArticleWithFeed where
  article : RssArticleDoc
  sourceCount : Nat
  feed : Option RssFeedDoc
  deriving DecidableEq

/-- Insert an article into a list kept sorted by `pubDate` descending:
the placement step of the Mongo `sort({ pubDate: -1 })`. -/
def insertByPubDateDesc (a : RssArticleDoc) :
    List RssArticleDoc → List RssArticleDoc
  | [] => [a]
  | b :: rest =>
    if b.pubDate ≤ a.pubDate then a :: b :: rest
    else b :: insertByPubDateDesc a rest

/-- Mongo `sort({ pubDate: -1 })`: rearrange the matching articles into
descending `pubDate` order. -/
def sortByPubDateDesc : List RssArticleDoc → List RssArticleDoc
  | [] => []
  | a :: rest => insertByPubDateDesc a (sortByPubDateDesc rest)

/-- `getArticlesByFeedsAndDateRange` (RSS article actions): keep the
articles whose primary `feedId` or some member of `sourceFeedIds` is among
the requested feed ids and whose `pubDate` lies in the closed range
`[startDate, endDate]`; sort them by `pubDate` descending; truncate to
`limit`; and join each row with its primary feed document and its
`sourceCount`. -/
def getArticlesByFeedsAndDateRange (st : DbState) (feedIds : List String)
    (startDate endDate : Int) (limit : Nat) : List ArticleWithFeed :=
  let matching := st.rssArticles.filter (fun a =>
    (feedIds.contains a.feedId || a.sourceFeedIds.any (fun x => feedIds.contains x)) &&
    (decide (startDate ≤ a.pubDate) && decide (a.pubDate ≤ endDate)))
  let limited := (sortByPubDateDesc matching).take limit
  limited.map (fun a =>
    { article := a, sourceCount := a.sourceFeedIds.length,
      feed := st.rssFeeds.find? (fun f => f.id == a.feedId) })

/-- Message of the error thrown by `prepareFeedsAndArticles` when the
final article query comes back empty. -/
def noContentMessage : String :=
  "No articles found for the selected feeds and date range"

/-- `prepareFeedsAndArticles` (`src/lib/rss/feed-refresh.ts`): classify
the requested feeds with `getFeedsToRefresh`; if any are stale, refresh
them all with `Promise.allSettled`, counting fulfilled and rejected
outcomes for the log line; then query the articles in range and throw
`noContentMessage` exactly when that query is empty.  The returned triple
is the thrown-or-returned value, the final database state, and the logged
refresh summary (`none` when every feed was fresh and no refresh ran). -/
def prepareFeedsAndArticles (now : Int)
    (fetchOutcome : String → Except String (FeedMetadata × List ArticleCreateData))
    (ingest : IngestOp) (params : PrepareFeedsParams) (st : DbState) :
    Except String (List ArticleWithFeed) × DbState × Option RefreshSummary :=
  let feedsToRefresh := getFeedsToRefresh now params.feedIds st.rssFeeds
  let afterRefresh :=
    if 0 < feedsToRefresh.length then
      let r := refreshAllSettled now fetchOutcome ingest feedsToRefresh st
      (r.2,
       some { successful := (r.1.filter (fun x => isFulfilled x)).length,
              failed := (r.1.filter (fun x => !(isFulfilled x))).length })
    else (st, none)
  let articles := getArticlesByFeedsAndDateRange afterRefresh.1 params.feedIds
    params.startDate params.endDate ARTICLE_LIMIT
  if articles.length = 0 then (.error noContentMessage, afterRefresh)
  else (.ok articles, afterRefresh)

/-- `deleteRssFeed` (`src/actions/rss-feed.ts`): `$pull` the feed id out
of every article's `sourceFeedIds` (the `updateMany` filter touches
exactly the documents whose array contains it), then delete every article
whose `sourceFeedIds` is empty (every stored document carries the array,
so the `$exists: false` disjunct of the filter matches nothing), and
finally delete the feed document itself. -/
def deleteRssFeed (feedId : String) (st : DbState) : DbState :=
  let pulled := st.rssArticles.map (fun a =>
    if a.sourceFeedIds.contains feedId then
      { a with sourceFeedIds := a.sourceFeedIds.filter (fun x => !(x == feedId)) }
    else a)
  { rssFeeds := st.rssFeeds.eraseP (fun f => f.id == feedId),
    rssArticles := pulled.filter (fun a => !a.sourceFeedIds.isEmpty) }

/-- Sample create payload: article guid `g` produced by feed `f1`. -/
def sampleDataF1 : ArticleCreateData :=
  { feedId := "f1", guid := "g", title := "t", link := "l", pubDate := 5 }

/-- Sample create payload: the same article guid `g` produced by feed
`f2`. -/
def sampleDataF2 : ArticleCreateData :=
  { sampleDataF1 with feedId := "f2" }

/-- The stored document produced by feed `f1`'s insertion of guid `g`. -/
def sampleArticleF1 : RssArticleDoc :=
  { feedId := "f1", guid := "g", sourceFeedIds := ["f1"], title := "t",
    link := "l", pubDate := 5 }

/-- A feed document for url `hu` whose most recent fetch is at time 0. -/
def boundaryFeedDoc : RssFeedDoc :=
  { id := "A", userId := "u", url := "hu", lastFetched := some 0 }

/-- A feed document that has never been fetched. -/
def neverFetchedFeedDoc : RssFeedDoc :=
  { id := "A", userId := "u", url := "hu" }

/-- An article stored with primary feed `f` and a second source `h`. -/
def sharedArticleDoc : RssArticleDoc :=
  { feedId := "f", guid := "g2", sourceFeedIds := ["f", "h"], title := "t",
    link := "l", pubDate := 0 }

/-- Empty feed metadata, used by concrete refresh scenarios. -/
def sampleMetadata : FeedMetadata := {}

/-- The pure (interference-free) ingestion operation: every
`createRssArticle` call succeeds with the sequential semantics. -/
def pureIngest (now : Int) : IngestOp :=
  fun a s => .ok (createRssArticle now a s)

/-- A feed document for url `hu` fetched at time 0, fresh at `now = 0`. -/
def sampleFreshFeedDoc : RssFeedDoc :=
  { id := "A", userId := "u", url := "hu", lastFetched := some 0 }

/-- A stored article of feed `A` with `pubDate = 5`. -/
def sampleStoredArticle : RssArticleDoc :=
  { feedId := "A", guid := "g3", sourceFeedIds := ["A"], title := "t",
    link := "l", pubDate := 5 }

/-- A list has a maximum exactly when it is nonempty. -/
theorem maxOfList_eq_none {l : List Int} : maxOfList l = none ↔ l = [] := by
  cases l with
  | nil => simp [maxOfList]
  | cons t ts =>
    simp only [maxOfList]
    cases h : maxOfList ts <;> simp

/-- A list has a maximum exactly when it is nonempty, `isSome` form. -/
theorem maxOfList_isSome {l : List Int} :
    (maxOfList l).isSome = true ↔ l ≠ [] := by
  rw [Option.isSome_iff_ne_none]
  exact not_congr maxOfList_eq_none

/-- The maximum of a list reaches a bound exactly when some element
does. -/
theorem maxOfList_ge_iff (c : Int) (l : List Int) :
    (∃ m, maxOfList l = some m ∧ c ≤ m) ↔ ∃ t ∈ l, c ≤ t := by
  induction l with
  | nil => simp [maxOfList]
  | cons t ts ih =>
    simp only [maxOfList]
    cases h : maxOfList ts with
    | none =>
      have hts : ts = [] := maxOfList_eq_none.mp h
      subst hts
      simp
    | some m0 =>
      rw [h] at ih
      simp only [List.mem_cons]
      constructor
      · rintro ⟨m, hm, hc⟩
        have hmm : max t m0 = m := by injection hm
        have hcm : c ≤ max t m0 := by rw [hmm]; exact hc
        rcases le_max_iff.mp hcm with h1 | h2
        · exact ⟨t, Or.inl rfl, h1⟩
        · obtain ⟨x, hx, hcx⟩ := ih.mp ⟨m0, rfl, h2⟩
          exact ⟨x, Or.inr hx, hcx⟩
      · rintro ⟨x, hx | hx, hcx⟩
        · exact ⟨max t m0, rfl, le_max_of_le_left (hx ▸ hcx)⟩
        · obtain ⟨m, hm, hc⟩ := ih.mpr ⟨x, hx, hcx⟩
          have hmm : m0 = m := by injection hm
          have hcm : c ≤ m0 := by rw [hmm]; exact hc
          exact ⟨max t m0, rfl, le_max_of_le_right hcm⟩

/-- A list is nonempty exactly when it has a member. -/
theorem ne_nil_iff_exists_mem {α : Type} {l : List α} :
    l ≠ [] ↔ ∃ x, x ∈ l := by
  cases l <;> simp

/-- The aggregation of `getFeedsToRefresh` finds a recent fetch for a url
exactly when the maximal `lastFetched` over all records sharing that url
exists and reaches the threshold. -/
theorem maxRecentFetch_isSome_iff (c : Int) (col : List RssFeedDoc)
    (u : String) :
    (maxRecentFetch c col u).isSome = true ↔
      ∃ m, maxLastFetchedFor col u = some m ∧ c ≤ m := by
  rw [maxRecentFetch, maxOfList_isSome, maxLastFetchedFor, maxOfList_ge_iff,
    ne_nil_iff_exists_mem]
  constructor
  · rintro ⟨t, ht⟩
    rw [List.mem_filterMap] at ht
    obtain ⟨r, hr, hrt⟩ := ht
    by_cases hu : r.url = u
    · simp only [hu, beq_self_eq_true, if_true] at hrt
      cases hlf : r.lastFetched with
      | none => rw [hlf] at hrt; simp at hrt
      | some t0 =>
        rw [hlf] at hrt
        by_cases hct : c ≤ t0
        · simp only [hct, if_pos] at hrt
          have ht0 : t0 = t := by injection hrt
          refine ⟨t, ?_, ht0 ▸ hct⟩
          rw [List.mem_filterMap]
          exact ⟨r, hr, by simp [hu, hlf, ht0]⟩
        · simp [hct] at hrt
    · simp [hu] at hrt
  · rintro ⟨t, ht, hct⟩
    rw [List.mem_filterMap] at ht
    obtain ⟨r, hr, hrt⟩ := ht
    by_cases hu : r.url = u
    · simp only [hu, beq_self_eq_true, if_true] at hrt
      refine ⟨t, ?_⟩
      rw [List.mem_filterMap]
      exact ⟨r, hr, by simp [hu, hrt, hct]⟩
    · simp [hu] at hrt

/-- Claim C1 (amended): a requested feed id is returned for refresh (is
stale) exactly when some feed record carries that id, the id was
requested, and it is not the case that the maximal `lastFetched` over all
feed records (across all accounts) sharing that record's url exists and
satisfies `now - max ≤ CACHE_WINDOW`.  Equivalently, a feed is fresh iff
that maximum exists and is within the closed window; a never-fetched url
is stale; and a tie at exactly the window boundary (`now - max =
CACHE_WINDOW`) is classified as fresh, because the aggregation keeps
records with `lastFetched ≥ now - CACHE_WINDOW`. -/
theorem getFeedsToRefresh_characterization (now : Int)
    (feedIds : List String) (feedsCol : List RssFeedDoc) (f : String) :
    f ∈ getFeedsToRefresh now feedIds feedsCol ↔
      ∃ rec ∈ feedsCol, rec.id = f ∧ f ∈ feedIds ∧
        ¬∃ m, maxLastFetchedFor feedsCol rec.url = some m ∧
          now - m ≤ CACHE_WINDOW := by
  simp only [getFeedsToRefresh, List.mem_map, List.mem_filter,
    Bool.not_eq_true']
  constructor
  · rintro ⟨rec, ⟨⟨hcol, hid⟩, hq⟩, rfl⟩
    refine ⟨rec, hcol, rfl, by simpa using hid, ?_⟩
    rintro ⟨m, hm, hwin⟩
    have hmem : rec.url ∈ ((feedsCol.filter
        (fun f => feedIds.contains f.id)).map (fun f => f.url)).dedup := by
      rw [List.mem_dedup, List.mem_map]
      exact ⟨rec, List.mem_filter.mpr ⟨hcol, hid⟩, rfl⟩
    have hsome : (maxRecentFetch (now - CACHE_WINDOW) feedsCol
        rec.url).isSome = true :=
      (maxRecentFetch_isSome_iff _ _ _).mpr ⟨m, hm, by omega⟩
    have : ((((feedsCol.filter (fun f => feedIds.contains f.id)).map
        (fun f => f.url)).dedup.filter
        (fun u => (maxRecentFetch (now - CACHE_WINDOW) feedsCol
          u).isSome)).contains rec.url) = true := by
      simp only [List.contains_iff_exists_mem_beq]
      exact ⟨rec.url, List.mem_filter.mpr ⟨hmem, hsome⟩, by simp⟩
    rw [this] at hq
    simp at hq
  · rintro ⟨rec, hcol, rfl, hreq, hnot⟩
    have hid : feedIds.contains rec.id = true := by simpa using hreq
    have hq : ((((feedsCol.filter (fun f => feedIds.contains f.id)).map
        (fun f => f.url)).dedup.filter
        (fun u => (maxRecentFetch (now - CACHE_WINDOW) feedsCol
          u).isSome)).contains rec.url) = false := by
      rw [Bool.eq_false_iff]
      intro hc
      rw [List.contains_iff_exists_mem_beq] at hc
      obtain ⟨u, hu, hbeq⟩ := hc
      have hueq : rec.url = u := by simpa using hbeq
      subst hueq
      have hsome := (List.mem_filter.mp hu).2
      obtain ⟨m, hm, hcm⟩ := (maxRecentFetch_isSome_iff _ _ _).mp hsome
      exact hnot ⟨m, hm, by omega⟩
    exact ⟨rec, ⟨⟨hcol, hid⟩, hq⟩, rfl⟩

/-- Claim C1 counterexample: with a single feed record for url `hu` last
fetched at time 0 and `now = CACHE_WINDOW`, the gap between `now` and the
maximal `lastFetched` for the url equals the window exactly, yet
`getFeedsToRefresh` returns no feed to refresh, classifying the feed as
fresh — the claim's tie-break requires this boundary case to be stale. -/
theorem freshness_boundary_counterexample :
    maxLastFetchedFor [boundaryFeedDoc] boundaryFeedDoc.url = some 0 ∧
    CACHE_WINDOW - 0 = CACHE_WINDOW ∧
    getFeedsToRefresh CACHE_WINDOW ["A"] [boundaryFeedDoc] = [] := by
  decide

/-- Adding a value with `$addToSet` puts it in the set. -/
theorem mem_addToSet_self (xs : List String) (x : String) :
    x ∈ addToSet xs x := by
  unfold addToSet
  split
  · assumption
  · simp

/-- `$addToSet` keeps every value already in the set. -/
theorem mem_addToSet_of_mem {xs : List String} {y : String} (x : String)
    (h : y ∈ xs) : y ∈ addToSet xs x := by
  unfold addToSet
  split
  · exact h
  · exact List.mem_append_left _ h

/-- `$addToSet` introduces no value other than the added one. -/
theorem mem_of_mem_addToSet {xs : List String} {x y : String}
    (h : y ∈ addToSet xs x) : y ∈ xs ∨ y = x := by
  unfold addToSet at h
  split at h
  · exact Or.inl h
  · rcases List.mem_append.mp h with h | h
    · exact Or.inl h
    · simp at h
      exact Or.inr h

/-- Updating the first guid match after a prefix that contains no match
rewrites exactly the appended document. -/
theorem updateFirstByGuid_append_singleton (g : String)
    (f : RssArticleDoc → RssArticleDoc) (l : List RssArticleDoc)
    (a : RssArticleDoc) (h : ∀ x ∈ l, x.guid ≠ g) (ha : a.guid = g) :
    updateFirstByGuid g f (l ++ [a]) = l ++ [f a] := by
  induction l with
  | nil => simp [updateFirstByGuid, ha]
  | cons b rest ih =>
    have hb : b.guid ≠ g := h b (List.mem_cons_self _ _)
    simp only [List.cons_append, updateFirstByGuid, List.append_eq]
    rw [if_neg hb, ih (fun x hx => h x (List.mem_cons_of_mem _ hx))]

/-- After updating the first guid match with a guid-preserving rewrite,
`find?` for that guid returns the rewritten document. -/
theorem find?_updateFirstByGuid (g : String)
    (f : RssArticleDoc → RssArticleDoc)
    (hf : ∀ a, (f a).guid = a.guid) (l : List RssArticleDoc)
    (ex : RssArticleDoc)
    (h : l.find? (fun a => a.guid == g) = some ex) :
    (updateFirstByGuid g f l).find? (fun a => a.guid == g) = some (f ex) := by
  induction l with
  | nil => simp at h
  | cons b rest ih =>
    by_cases hb : b.guid = g
    · rw [List.find?_cons_of_pos _ (by simp [hb])] at h
      injection h with h
      subst h
      simp only [updateFirstByGuid]
      rw [if_pos hb, List.find?_cons_of_pos _ (by simp [hf, hb])]
    · rw [List.find?_cons_of_neg _ (by simp [hb])] at h
      simp only [updateFirstByGuid]
      rw [if_neg hb, List.find?_cons_of_neg _ (by simp [hb])]
      exact ih h

/-- Every document of an updated collection is an original document or the
rewrite of an original document. -/
theorem mem_updateFirstByGuid {g : String}
    {f : RssArticleDoc → RssArticleDoc} {l : List RssArticleDoc}
    {a : RssArticleDoc} (h : a ∈ updateFirstByGuid g f l) :
    a ∈ l ∨ ∃ b ∈ l, a = f b := by
  induction l with
  | nil => simp [updateFirstByGuid] at h
  | cons b rest ih =>
    simp only [updateFirstByGuid] at h
    split at h
    · rcases List.mem_cons.mp h with h | h
      · exact Or.inr ⟨b, List.mem_cons_self _ _, h⟩
      · exact Or.inl (List.mem_cons_of_mem _ h)
    · rcases List.mem_cons.mp h with h | h
      · exact Or.inl (h ▸ List.mem_cons_self _ _)
      · rcases ih h with h | ⟨c, hc, hfc⟩
        · exact Or.inl (List.mem_cons_of_mem _ h)
        · exact Or.inr ⟨c, List.mem_cons_of_mem _ hc, hfc⟩

/-- `createRssArticle` when the guid is already stored: reduce the match
to the update-or-no-op branch. -/
theorem createRssArticle_of_find_some {d : ArticleCreateData}
    {s : List RssArticleDoc} {ex : RssArticleDoc}
    (h : s.find? (fun a => a.guid == d.guid) = some ex) (n : Int) :
    createRssArticle n d s =
      if d.feedId ∈ ex.sourceFeedIds then s
      else
        updateFirstByGuid d.guid
          (fun a => { a with sourceFeedIds := addToSet a.sourceFeedIds d.feedId })
          s := by
  unfold createRssArticle
  rw [h]

/-- `createRssArticle` when the guid is new: reduce the match to the
insert branch. -/
theorem createRssArticle_of_find_none {d : ArticleCreateData}
    {s : List RssArticleDoc}
    (h : s.find? (fun a => a.guid == d.guid) = none) (n : Int) :
    createRssArticle n d s = s ++ [newArticleDoc n d] := by
  unfold createRssArticle
  rw [h]

/-- Re-ingesting any payload a second time is a no-op: after one
`createRssArticle` call the stored article for the guid contains the feed
id, so the second call takes the early-return branch. -/
theorem createRssArticle_idem (n n2 : Int) (d : ArticleCreateData)
    (s : List RssArticleDoc) :
    createRssArticle n2 d (createRssArticle n d s) =
      createRssArticle n d s := by
  cases h : s.find? (fun a => a.guid == d.guid) with
  | none =>
    rw [createRssArticle_of_find_none h n]
    have hfind : (s ++ [newArticleDoc n d]).find?
        (fun a => a.guid == d.guid) = some (newArticleDoc n d) := by
      rw [List.find?_append, h]
      simp [newArticleDoc]
    rw [createRssArticle_of_find_some hfind n2,
      if_pos (by simp [newArticleDoc])]
  | some ex =>
    by_cases hmem : d.feedId ∈ ex.sourceFeedIds
    · rw [createRssArticle_of_find_some h n, if_pos hmem,
        createRssArticle_of_find_some h n2, if_pos hmem]
    · rw [createRssArticle_of_find_some h n, if_neg hmem]
      have hfind := find?_updateFirstByGuid d.guid
        (fun a => { a with sourceFeedIds := addToSet a.sourceFeedIds d.feedId })
        (fun a => rfl) s ex h
      rw [createRssArticle_of_find_some hfind n2,
        if_pos (mem_addToSet_self _ _)]

/-- Claim C2: for a guid not yet stored, ingesting it from feed `f1` and
then from feed `f2` (in either order) leaves exactly one stored article
for the guid, whose `sourceFeedIds` contains `f1` and `f2` once each and
nothing else; the two ingestion orders agree on the resulting source set;
and re-ingesting any same (guid, feed) payload any number of times is a
no-op on the store. -/
theorem upsert_idempotent_commutative (n1 n2 n3 n4 : Int)
    (d1 d2 : ArticleCreateData) (store : List RssArticleDoc)
    (hg : ∀ a ∈ store, a.guid ≠ d1.guid) (hguid : d2.guid = d1.guid)
    (hne : d1.feedId ≠ d2.feedId) :
    ((createRssArticle n2 d2 (createRssArticle n1 d1 store)).countP
        (fun a => a.guid == d1.guid) = 1) ∧
    (∀ a ∈ createRssArticle n2 d2 (createRssArticle n1 d1 store),
      a.guid = d1.guid → a.sourceFeedIds = [d1.feedId, d2.feedId]) ∧
    (∀ b ∈ createRssArticle n4 d1 (createRssArticle n3 d2 store),
      b.guid = d1.guid → b.sourceFeedIds = [d2.feedId, d1.feedId]) ∧
    (∀ a ∈ createRssArticle n2 d2 (createRssArticle n1 d1 store),
      ∀ b ∈ createRssArticle n4 d1 (createRssArticle n3 d2 store),
      a.guid = d1.guid → b.guid = d1.guid →
        a.sourceFeedIds.count d1.feedId = 1 ∧
        a.sourceFeedIds.count d2.feedId = 1 ∧
        (∀ x, x ∈ a.sourceFeedIds ↔ x ∈ b.sourceFeedIds)) ∧
    (∀ (n n' : Int) (d : ArticleCreateData) (s : List RssArticleDoc),
      createRssArticle n' d (createRssArticle n d s) =
        createRssArticle n d s) := by
  have hfind1 : store.find? (fun a => a.guid == d1.guid) = none :=
    List.find?_eq_none.mpr (fun x hx => by simp [hg x hx])
  have hfind2 : store.find? (fun a => a.guid == d2.guid) = none := by
    rw [hguid]
    exact hfind1
  have hA : createRssArticle n2 d2 (createRssArticle n1 d1 store) =
      store ++ [{ newArticleDoc n1 d1 with
        sourceFeedIds := [d1.feedId, d2.feedId] }] := by
    rw [createRssArticle_of_find_none hfind1 n1]
    have hfind : (store ++ [newArticleDoc n1 d1]).find?
        (fun a => a.guid == d2.guid) = some (newArticleDoc n1 d1) := by
      rw [List.find?_append, hfind2]
      simp [newArticleDoc, hguid]
    rw [createRssArticle_of_find_some hfind n2,
      if_neg (by simp [newArticleDoc, hne.symm])]
    rw [updateFirstByGuid_append_singleton d2.guid _ store _
      (fun x hx => hguid ▸ hg x hx) (by simp [newArticleDoc, hguid])]
    have : addToSet [d1.feedId] d2.feedId = [d1.feedId, d2.feedId] := by
      unfold addToSet
      rw [if_neg (by simp [hne.symm])]
      rfl
    simp [newArticleDoc, this]
  have hB : createRssArticle n4 d1 (createRssArticle n3 d2 store) =
      store ++ [{ newArticleDoc n3 d2 with
        sourceFeedIds := [d2.feedId, d1.feedId] }] := by
    rw [createRssArticle_of_find_none hfind2 n3]
    have hfind : (store ++ [newArticleDoc n3 d2]).find?
        (fun a => a.guid == d1.guid) = some (newArticleDoc n3 d2) := by
      rw [List.find?_append, hfind1]
      simp [newArticleDoc, hguid]
    rw [createRssArticle_of_find_some hfind n4,
      if_neg (by simp [newArticleDoc, hne])]
    rw [updateFirstByGuid_append_singleton d1.guid _ store _
      (fun x hx => hg x hx) (by simp [newArticleDoc, hguid])]
    have : addToSet [d2.feedId] d1.feedId = [d2.feedId, d1.feedId] := by
      unfold addToSet
      rw [if_neg (by simp [hne])]
      rfl
    simp [newArticleDoc, this]
  refine ⟨?_, ?_, ?_, ?_, ?_⟩
  · rw [hA, List.countP_append]
    have h0 : store.countP (fun a => a.guid == d1.guid) = 0 :=
      List.countP_eq_zero.mpr (fun x hx => by simp [hg x hx])
    rw [h0]
    simp [newArticleDoc]
  · intro a ha hguida
    rw [hA] at ha
    rcases List.mem_append.mp ha with ha | ha
    · exact absurd hguida (hg a ha)
    · simp only [List.mem_singleton] at ha
      rw [ha]
  · intro b hb hguidb
    rw [hB] at hb
    rcases List.mem_append.mp hb with hb | hb
    · exact absurd hguidb (hg b hb)
    · simp only [List.mem_singleton] at hb
      rw [hb]
  · intro a ha b hb hguida hguidb
    rw [hA] at ha
    rcases List.mem_append.mp ha with ha | ha
    · exact absurd hguida (hg a ha)
    · rw [hB] at hb
      rcases List.mem_append.mp hb with hb | hb
      · exact absurd hguidb (hg b hb)
      · simp only [List.mem_singleton] at ha hb
        rw [ha, hb]
        refine ⟨?_, ?_, ?_⟩
        · simp [List.count_cons, hne.symm]
        · simp [List.count_cons, hne]
        · intro x
          simp only [List.mem_cons, List.not_mem_nil, or_false]
          exact or_comm
  · exact fun n n' d s => createRssArticle_idem n n' d s

/-- Claim C2 witness: the two-feed ingestion of guid `g` into the empty
store, evaluated concretely. -/
theorem upsert_idempotent_commutative_witness :
    (createRssArticle 0 sampleDataF2
        (createRssArticle 0 sampleDataF1 [])).countP
      (fun a => a.guid == sampleDataF1.guid) = 1 :=
  (upsert_idempotent_commutative 0 0 0 0 sampleDataF1 sampleDataF2 []
    (by simp) rfl (by decide)).1

/-- Claim C10: `bulkCreateRssArticles` is total — every per-article
failure is caught and tallied — and its counters are exactly the tallies
of the per-call outcome trace: `created` counts successes, `skipped`
counts failures that are `Error` instances with MongoDB duplicate-key
code 11000, `errors` counts every other failure.  The trace has one entry
per input payload, so `created + skipped + errors` equals the length of
the input list, and `skipped` is incremented only for duplicate-key
failures. -/
theorem bulk_create_totals (ingest : IngestOp)
    (arts : List ArticleCreateData) (store : List RssArticleDoc) :
    ((bulkCreateRssArticles ingest arts store).1.created =
      (bulkTrace ingest arts store).countP (fun o => o.isNone)) ∧
    ((bulkCreateRssArticles ingest arts store).1.skipped =
      (bulkTrace ingest arts store).countP isDupFailure) ∧
    ((bulkCreateRssArticles ingest arts store).1.errors =
      (bulkTrace ingest arts store).countP isOtherFailure) ∧
    ((bulkCreateRssArticles ingest arts store).1.created +
      (bulkCreateRssArticles ingest arts store).1.skipped +
      (bulkCreateRssArticles ingest arts store).1.errors = arts.length) := by
  induction arts generalizing store with
  | nil => simp [bulkCreateRssArticles, bulkTrace]
  | cons a rest ih =>
    simp only [bulkCreateRssArticles, bulkTrace]
    cases h : ingest a store with
    | ok store2 =>
      obtain ⟨ih1, ih2, ih3, ih4⟩ := ih store2
      simp only [List.countP_cons, isDupFailure, isOtherFailure,
        Option.isNone_none, List.length_cons]
      simp [ih1, ih2, ih3]
      omega
    | error e =>
      by_cases hd : (e.isErrorInstance && e.code == some 11000) = true
      · obtain ⟨ih1, ih2, ih3, ih4⟩ := ih store
        simp only [hd, if_true, List.countP_cons, isDupFailure,
          isOtherFailure, List.length_cons]
        simp [ih1, ih2, ih3, hd]
        omega
      · obtain ⟨ih1, ih2, ih3, ih4⟩ := ih store
        simp only [hd, if_false, List.countP_cons, isDupFailure,
          isOtherFailure, List.length_cons]
        simp [ih1, ih2, ih3, hd]
        omega

/-- Claim C3 counterexample: feed `f2` ingests guid `g` concurrently with
feed `f1`'s insert of the same guid; the `findOne` of `f2`'s call reads
the store before `f1`'s insert (empty), the subsequent `insertOne` hits
the unique guid index and throws MongoDB error 11000.
`bulkCreateRssArticles` catches the error and merely counts it as
`skipped`: the collection is unchanged and still attributes the article
to `f1` only, so the update path is not retried and `f2`'s source
attribution is dropped — contrary to the claim. -/
theorem duplicate_key_drops_attribution :
    (createRssArticleRaced 0 sampleDataF2 [] [sampleArticleF1] =
      Except.error { isErrorInstance := true, code := some 11000 }) ∧
    (bulkCreateRssArticles (fun a s => createRssArticleRaced 0 a [] s)
        [sampleDataF2] [sampleArticleF1] =
      ({ created := 0, skipped := 1, errors := 0 }, [sampleArticleF1])) ∧
    ("f2" ∉ sampleArticleF1.sourceFeedIds) := by
  decide

/-- Claim C3 (amended): a duplicate-key (code 11000) failure raised by an
article insert is caught inside `bulkCreateRssArticles` and tallied as
`skipped`, so the conflict is never surfaced to the caller of the bulk
operation; but no retry through the update path takes place — the article
collection is exactly what the failing call left behind, so the racing
feed id is not added to the existing article's `sourceFeedIds`. -/
theorem duplicate_key_tallied_as_skipped (ingest : IngestOp)
    (a : ArticleCreateData) (store : List RssArticleDoc) (e : DbFailure)
    (h : ingest a store = .error e) (he : e.isErrorInstance = true)
    (hc : e.code = some 11000) :
    bulkCreateRssArticles ingest [a] store =
      ({ created := 0, skipped := 1, errors := 0 }, store) := by
  simp [bulkCreateRssArticles, h, he, hc]

/-- Claim C3 amended witness: the concrete duplicate-key race, pushed
through `duplicate_key_tallied_as_skipped`. -/
theorem duplicate_key_tallied_as_skipped_witness :
    bulkCreateRssArticles (fun a s => createRssArticleRaced 0 a [] s)
        [sampleDataF2] [sampleArticleF1] =
      ({ created := 0, skipped := 1, errors := 0 }, [sampleArticleF1]) :=
  duplicate_key_tallied_as_skipped _ sampleDataF2 [sampleArticleF1]
    { isErrorInstance := true, code := some 11000 } (by decide) rfl rfl

/-- Claim C7 counterexample: the fetch of feed `A` succeeds with one
returned article whose ingestion then fails with a non-duplicate database
error (tallied as `errors := 1`); the ingestion of that returned article
did not succeed, yet `fetchAndStoreFeed` still updates the feed's
`lastFetched` to `now = 99` — contrary to the claim that `lastFetched` is
updated only after the ingestion of every returned article has
succeeded. -/
theorem lastFetched_updated_despite_ingest_error :
    fetchAndStoreFeed 99 (.ok (sampleMetadata, [sampleDataF1]))
        (fun _ _ => .error { isErrorInstance := true, code := some 500 })
        "A" { rssFeeds := [neverFetchedFeedDoc], rssArticles := [] } =
      (.ok { metadata := sampleMetadata, created := 0, skipped := 0,
             errors := 1 },
       { rssFeeds := [{ neverFetchedFeedDoc with lastFetched := some 99 }],
         rssArticles := [] }) := by
  decide

/-- Claim C7 (amended): `fetchAndStoreFeed` leaves every stored feed
field — `lastFetched` and metadata included — unchanged when the feed
lookup or the fetch/parse of the feed url fails; when the fetch-and-parse
succeeds it updates `lastFetched` only after the bulk ingestion pass over
all returned articles has completed, with individual article failures
tallied in the returned counters rather than blocking the update. -/
theorem fetch_failure_leaves_state (now : Int)
    (fetchOutcome : Except String (FeedMetadata × List ArticleCreateData))
    (ingest : IngestOp) (feedId : String) (st : DbState) :
    ((∃ e, fetchOutcome = .error e) →
      (fetchAndStoreFeed now fetchOutcome ingest feedId st).2 = st) ∧
    (st.rssFeeds.find? (fun f => f.id == feedId) = none →
      (fetchAndStoreFeed now fetchOutcome ingest feedId st).2 = st) ∧
    (∀ md arts, fetchOutcome = .ok (md, arts) →
      st.rssFeeds.find? (fun f => f.id == feedId) ≠ none →
      (fetchAndStoreFeed now fetchOutcome ingest feedId st).2.rssFeeds =
        updateFeedLastFetched now feedId st.rssFeeds) := by
  unfold fetchAndStoreFeed
  cases hf : st.rssFeeds.find? (fun f => f.id == feedId) with
  | none =>
    refine ⟨fun _ => rfl, fun _ => rfl, ?_⟩
    intro md arts _ hne
    exact absurd rfl hne
  | some fd =>
    cases fetchOutcome with
    | error e =>
      refine ⟨fun _ => rfl, ?_, ?_⟩
      · intro hnone
        simp at hnone
      · intro md arts hok
        simp at hok
    | ok p =>
      refine ⟨?_, ?_, ?_⟩
      · rintro ⟨e, he⟩
        simp at he
      · intro hnone
        simp at hnone
      · intro md arts hok hne
        obtain ⟨md0, arts0⟩ := p
        injection hok with hok
        rfl

/-- Claim C7 amended witness: a failed fetch of feed `A` leaves the
database state unchanged. -/
theorem fetch_failure_leaves_state_witness :
    (fetchAndStoreFeed 0 (.error ("network timeout")) (pureIngest 0) "A"
      { rssFeeds := [neverFetchedFeedDoc], rssArticles := [] }).2 =
      { rssFeeds := [neverFetchedFeedDoc], rssArticles := [] } :=
  (fetch_failure_leaves_state 0 (.error ("network timeout")) (pureIngest 0)
    "A" { rssFeeds := [neverFetchedFeedDoc], rssArticles := [] }).1
    ⟨"network timeout", rfl⟩

/-- The conditional `updateMany` filter of `deleteRssFeed` is immaterial:
pulling a feed id out of an array that does not contain it changes
nothing, so the map over matched documents equals the unconditional
pull. -/
theorem deleteRssFeed_pull_eq_map (f : String) (l : List RssArticleDoc) :
    l.map (fun a =>
      if a.sourceFeedIds.contains f then
        { a with sourceFeedIds :=
            a.sourceFeedIds.filter (fun x => !(x == f)) }
      else a) =
    l.map (fun a =>
      { a with sourceFeedIds :=
          a.sourceFeedIds.filter (fun x => !(x == f)) }) := by
  induction l with
  | nil => rfl
  | cons a rest ih =>
    simp only [List.map_cons, ih]
    congr 1
    by_cases h : a.sourceFeedIds.contains f = true
    · rw [if_pos h]
    · rw [if_neg h]
      have hx : a.sourceFeedIds.filter (fun x => !(x == f)) =
          a.sourceFeedIds := by
        apply List.filter_eq_self.mpr
        intro x hxm
        have hne : x ≠ f := by
          intro he
          exact h (List.contains_iff_exists_mem_beq.mpr
            ⟨x, hxm, by simp [he]⟩)
        simp [hne]
      rw [hx]

/-- Claim C8: `deleteRssFeed f` leaves exactly the articles obtained by
pulling `f` out of every article's `sourceFeedIds` and dropping those
whose source set is then empty; no surviving article mentions `f`; an
article whose `sourceFeedIds` was `[f]` is deleted; and an article whose
`sourceFeedIds` was `[f, g]` (with `g ≠ f`) survives with
`sourceFeedIds = [g]`. -/
theorem delete_feed_reference_spec (f g : String) (st : DbState)
    (hg : g ≠ f) :
    ((deleteRssFeed f st).rssArticles =
      (st.rssArticles.map (fun a =>
        { a with sourceFeedIds :=
            a.sourceFeedIds.filter (fun x => !(x == f)) })).filter
        (fun a => !a.sourceFeedIds.isEmpty)) ∧
    (∀ a ∈ (deleteRssFeed f st).rssArticles, f ∉ a.sourceFeedIds) ∧
    (∀ a : RssArticleDoc, a.sourceFeedIds = [f] →
      (deleteRssFeed f { rssFeeds := st.rssFeeds, rssArticles := [a] }).rssArticles = []) ∧
    (∀ a : RssArticleDoc, a.sourceFeedIds = [f, g] →
      (deleteRssFeed f { rssFeeds := st.rssFeeds, rssArticles := [a] }).rssArticles =
        [{ a with sourceFeedIds := [g] }]) := by
  refine ⟨?_, ?_, ?_, ?_⟩
  · unfold deleteRssFeed
    rw [deleteRssFeed_pull_eq_map]
  · intro a ha
    unfold deleteRssFeed at ha
    rw [deleteRssFeed_pull_eq_map] at ha
    obtain ⟨hmem, _⟩ := List.mem_filter.mp ha
    obtain ⟨b, _, hb⟩ := List.mem_map.mp hmem
    intro hf
    rw [← hb] at hf
    simp only [List.mem_filter] at hf
    simp at hf
  · intro a ha
    unfold deleteRssFeed
    simp [ha]
  · intro a ha
    unfold deleteRssFeed
    simp [ha, hg]

/-- Claim C8 witness: deleting feed `f` on a store holding one article
sourced by `f` and `h` leaves the article with source `h` alone. -/
theorem delete_feed_reference_spec_witness :
    (deleteRssFeed "f" { rssFeeds := [], rssArticles := [sharedArticleDoc] }).rssArticles =
      [{ sharedArticleDoc with sourceFeedIds := ["h"] }] :=
  (delete_feed_reference_spec "f" "h"
    { rssFeeds := [], rssArticles := [sharedArticleDoc] }
    (by decide)).2.2.2 sharedArticleDoc rfl

/-- Claim C9 counterexample: the stored article has primary feed `f` and
sources `[f, h]`; `deleteRssFeed "f"` pulls `f` from the source set but
never rewrites the primary `feedId`, so the surviving article has
`feedId = "f"` with `sourceFeedIds = ["h"]` — the invariant
`primaryFeed ∈ sourceFeeds` does not survive feed-reference removal. -/
theorem delete_breaks_primary_membership :
    ((deleteRssFeed "f" { rssFeeds := [], rssArticles := [sharedArticleDoc] }).rssArticles =
      [{ sharedArticleDoc with sourceFeedIds := ["h"] }]) ∧
    (∀ a ∈ (deleteRssFeed "f" { rssFeeds := [], rssArticles := [sharedArticleDoc] }).rssArticles,
      a.feedId ∉ a.sourceFeedIds) := by
  decide

/-- Claim C9 (amended): the article upsert preserves the invariant that
every stored article's primary `feedId` belongs to its nonempty
`sourceFeedIds`; `deleteRssFeed` preserves nonemptiness of every
surviving article's source set, and preserves primary-feed membership for
every surviving article whose primary feed is not the deleted one — but
an article whose primary feed is the deleted feed can survive through
another source with its primary feed no longer in its source set. -/
theorem invariant_preservation_amended (now : Int) (d : ArticleCreateData)
    (f : String) (st : DbState) (store : List RssArticleDoc)
    (hinv : ∀ a ∈ store, a.feedId ∈ a.sourceFeedIds ∧ a.sourceFeedIds ≠ [])
    (hinv2 : ∀ a ∈ st.rssArticles, a.feedId ∈ a.sourceFeedIds) :
    (∀ a ∈ createRssArticle now d store,
      a.feedId ∈ a.sourceFeedIds ∧ a.sourceFeedIds ≠ []) ∧
    (∀ a ∈ (deleteRssFeed f st).rssArticles, a.sourceFeedIds ≠ []) ∧
    (∀ a ∈ (deleteRssFeed f st).rssArticles, a.feedId ≠ f →
      a.feedId ∈ a.sourceFeedIds) := by
  refine ⟨?_, ?_, ?_⟩
  · intro a ha
    cases h : store.find? (fun x => x.guid == d.guid) with
    | none =>
      rw [createRssArticle_of_find_none h now] at ha
      rcases List.mem_append.mp ha with ha | ha
      · exact hinv a ha
      · simp only [List.mem_singleton] at ha
        rw [ha]
        simp [newArticleDoc]
    | some ex =>
      rw [createRssArticle_of_find_some h now] at ha
      by_cases hmem : d.feedId ∈ ex.sourceFeedIds
      · rw [if_pos hmem] at ha
        exact hinv a ha
      · rw [if_neg hmem] at ha
        rcases mem_updateFirstByGuid ha with ha | ⟨b, hb, hab⟩
        · exact hinv a ha
        · rw [hab]
          refine ⟨mem_addToSet_of_mem _ (hinv b hb).1, ?_⟩
          exact List.ne_nil_of_mem (mem_addToSet_self _ _)
  · intro a ha
    unfold deleteRssFeed at ha
    obtain ⟨_, hne⟩ := List.mem_filter.mp ha
    intro hnil
    rw [hnil] at hne
    simp at hne
  · intro a ha hne
    unfold deleteRssFeed at ha
    rw [deleteRssFeed_pull_eq_map] at ha
    obtain ⟨hmem, _⟩ := List.mem_filter.mp ha
    obtain ⟨b, hb, hab⟩ := List.mem_map.mp hmem
    rw [← hab]
    simp only []
    apply List.mem_filter_of_mem
    · rw [← hab] at hne
      exact hinv2 b hb
    · rw [← hab] at hne
      simp only [] at hne
      simp [hne]

/-- Claim C9 amended witness: the surviving article of the concrete
deletion keeps a nonempty source set. -/
theorem invariant_preservation_amended_witness :
    ({ sharedArticleDoc with
        sourceFeedIds := ["h"] } : RssArticleDoc).sourceFeedIds ≠ [] :=
  (invariant_preservation_amended 0 sampleDataF1 "f"
    { rssFeeds := [], rssArticles := [sharedArticleDoc] } []
    (by simp) (by decide)).2.1
    { sharedArticleDoc with sourceFeedIds := ["h"] } (by decide)

/-- Inserting into the descending order is a permutation of consing. -/
theorem insertByPubDateDesc_perm (a : RssArticleDoc)
    (l : List RssArticleDoc) :
    List.Perm (insertByPubDateDesc a l) (a :: l) := by
  induction l with
  | nil => exact List.Perm.refl _
  | cons b rest ih =>
    unfold insertByPubDateDesc
    split
    · exact List.Perm.refl _
    · exact (List.Perm.cons b ih).trans (List.Perm.swap a b rest)

/-- The descending sort permutes its input. -/
theorem sortByPubDateDesc_perm (l : List RssArticleDoc) :
    List.Perm (sortByPubDateDesc l) l := by
  induction l with
  | nil => exact List.Perm.refl _
  | cons a rest ih =>
    exact (insertByPubDateDesc_perm a (sortByPubDateDesc rest)).trans
      (List.Perm.cons a ih)

/-- Inserting into a descending-sorted list keeps it descending. -/
theorem sorted_insertByPubDateDesc {a : RssArticleDoc}
    {l : List RssArticleDoc}
    (h : List.Pairwise (fun x y => y.pubDate ≤ x.pubDate) l) :
    List.Pairwise (fun x y => y.pubDate ≤ x.pubDate)
      (insertByPubDateDesc a l) := by
  induction l with
  | nil => simp [insertByPubDateDesc]
  | cons b rest ih =>
    obtain ⟨hb, hrest⟩ := List.pairwise_cons.mp h
    unfold insertByPubDateDesc
    by_cases hba : b.pubDate ≤ a.pubDate
    · rw [if_pos hba]
      refine List.pairwise_cons.mpr ⟨?_, h⟩
      intro y hy
      rcases List.mem_cons.mp hy with rfl | hy
      · exact hba
      · exact le_trans (hb y hy) hba
    · rw [if_neg hba]
      refine List.pairwise_cons.mpr ⟨?_, ih hrest⟩
      intro y hy
      have hy2 : y ∈ a :: rest :=
        (insertByPubDateDesc_perm a rest).mem_iff.mp hy
      rcases List.mem_cons.mp hy2 with rfl | hy2
      · exact le_of_not_le hba
      · exact hb y hy2

/-- The descending sort produces a descending list. -/
theorem sorted_sortByPubDateDesc (l : List RssArticleDoc) :
    List.Pairwise (fun x y => y.pubDate ≤ x.pubDate)
      (sortByPubDateDesc l) := by
  induction l with
  | nil => simp [sortByPubDateDesc]
  | cons a rest ih => exact sorted_insertByPubDateDesc ih

/-- Claim C6: `getArticlesByFeedsAndDateRange` returns only articles
whose primary `feedId` is among the requested ids or whose
`sourceFeedIds` intersects them, never an article whose `pubDate` falls
outside the closed interval `[startDate, endDate]`, at most `limit` rows,
and the rows come sorted by `pubDate` descending. -/
theorem query_by_feeds_and_range_sound (st : DbState)
    (feedIds : List String) (startDate endDate : Int) (limit : Nat) :
    (∀ x ∈ getArticlesByFeedsAndDateRange st feedIds startDate endDate
        limit,
      (x.article.feedId ∈ feedIds ∨
        ∃ i ∈ x.article.sourceFeedIds, i ∈ feedIds) ∧
      startDate ≤ x.article.pubDate ∧ x.article.pubDate ≤ endDate) ∧
    (getArticlesByFeedsAndDateRange st feedIds startDate endDate
      limit).length ≤ limit ∧
    List.Pairwise (fun x y : ArticleWithFeed =>
        y.article.pubDate ≤ x.article.pubDate)
      (getArticlesByFeedsAndDateRange st feedIds startDate endDate
        limit) := by
  refine ⟨?_, ?_, ?_⟩
  · intro x hx
    unfold getArticlesByFeedsAndDateRange at hx
    obtain ⟨a, ha, hax⟩ := List.mem_map.mp hx
    have ha2 := List.take_subset _ _ ha
    have ha3 := (sortByPubDateDesc_perm _).subset ha2
    obtain ⟨_, hcond⟩ := List.mem_filter.mp ha3
    simp only [Bool.and_eq_true, Bool.or_eq_true, decide_eq_true_eq,
      List.any_eq_true] at hcond
    rw [← hax]
    refine ⟨?_, hcond.2.1, hcond.2.2⟩
    rcases hcond.1 with hc | hc
    · exact Or.inl (by simpa using hc)
    · obtain ⟨i, hi, hci⟩ := hc
      exact Or.inr ⟨i, hi, by simpa using hci⟩
  · unfold getArticlesByFeedsAndDateRange
    rw [List.length_map]
    exact List.length_take_le _ _
  · unfold getArticlesByFeedsAndDateRange
    apply List.pairwise_map.mpr
    exact List.Pairwise.sublist (List.take_sublist _ _)
      (sorted_sortByPubDateDesc _)

/-- Claim C6 witness: the single stored article of feed `A` is returned
and satisfies the feed-membership and range bounds. -/
theorem query_by_feeds_and_range_sound_witness :
    (sampleStoredArticle.feedId ∈ ["A"] ∨
      ∃ i ∈ sampleStoredArticle.sourceFeedIds, i ∈ ["A"]) ∧
    (0 : Int) ≤ sampleStoredArticle.pubDate ∧
    sampleStoredArticle.pubDate ≤ 10 :=
  (query_by_feeds_and_range_sound
    { rssFeeds := [sampleFreshFeedDoc], rssArticles := [sampleStoredArticle] }
    ["A"] 0 10 ARTICLE_LIMIT).1
    { article := sampleStoredArticle, sourceCount := 1,
      feed := some sampleFreshFeedDoc } (by decide)

/-- `Promise.allSettled` yields one settled outcome per stale feed: no
rejection removes a sibling refresh from the collected results. -/
theorem refreshAllSettled_length (now : Int)
    (fetchOutcome : String → Except String (FeedMetadata × List ArticleCreateData))
    (ingest : IngestOp) (fs : List String) (st : DbState) :
    (refreshAllSettled now fetchOutcome ingest fs st).1.length =
      fs.length := by
  induction fs generalizing st with
  | nil => rfl
  | cons f rest ih => simp [refreshAllSettled, ih]

/-- A list splits into the elements satisfying a predicate and those
falsifying it. -/
theorem length_filter_add_length_filter_not {α : Type} (p : α → Bool)
    (l : List α) :
    (l.filter p).length + (l.filter (fun x => !p x)).length = l.length := by
  induction l with
  | nil => rfl
  | cons a rest ih =>
    by_cases h : p a = true
    · simp [List.filter_cons, h]
      omega
    · rw [Bool.not_eq_true] at h
      simp [List.filter_cons, h]
      omega

/-- Claim C4: a fetch/parse/store failure on one stale feed never escapes
`prepareFeedsAndArticles` — the only error it can return is the
no-content error — every stale feed contributes exactly one settled
outcome, and whenever a refresh ran the logged summary counts the
fulfilled and rejected refreshes, the two counts summing to the number of
stale feeds. -/
theorem prepare_collects_failures (now : Int)
    (fetchOutcome : String → Except String (FeedMetadata × List ArticleCreateData))
    (ingest : IngestOp) (params : PrepareFeedsParams) (st : DbState) :
    (∀ e, (prepareFeedsAndArticles now fetchOutcome ingest params st).1 =
        .error e → e = noContentMessage) ∧
    ((refreshAllSettled now fetchOutcome ingest
        (getFeedsToRefresh now params.feedIds st.rssFeeds) st).1.length =
      (getFeedsToRefresh now params.feedIds st.rssFeeds).length) ∧
    (∀ s, (prepareFeedsAndArticles now fetchOutcome ingest params st).2.2 =
        some s →
      s.successful + s.failed =
        (getFeedsToRefresh now params.feedIds st.rssFeeds).length) ∧
    (getFeedsToRefresh now params.feedIds st.rssFeeds ≠ [] →
      ∃ s, (prepareFeedsAndArticles now fetchOutcome ingest params st).2.2 =
        some s) := by
  refine ⟨?_, refreshAllSettled_length now fetchOutcome ingest _ st, ?_, ?_⟩
  · intro e he
    simp only [prepareFeedsAndArticles] at he
    split at he <;> split at he <;> simp at he <;> exact he.symm
  · intro sm hs
    simp only [prepareFeedsAndArticles] at hs
    split at hs <;> split at hs <;> simp at hs <;>
      rw [← hs, ← refreshAllSettled_length now fetchOutcome ingest
        (getFeedsToRefresh now params.feedIds st.rssFeeds) st] <;>
      exact (length_filter_add_length_filter_not (fun x => isFulfilled x)
        (refreshAllSettled now fetchOutcome ingest
          (getFeedsToRefresh now params.feedIds st.rssFeeds) st).1).symm ▸ rfl
  · intro hne
    have hpos : 0 < (getFeedsToRefresh now params.feedIds
        st.rssFeeds).length := List.length_pos.mpr hne
    simp only [prepareFeedsAndArticles]
    split
    · split
      · exact ⟨_, rfl⟩
      · exact ⟨_, rfl⟩
    · exact absurd hpos (by assumption)

/-- Claim C4 witness: one stale feed whose fetch times out yields the
logged summary `0` fulfilled, `1` rejected, matching the stale count. -/
theorem prepare_collects_failures_witness :
    ({ successful := 0, failed := 1 } : RefreshSummary).successful +
      ({ successful := 0, failed := 1 } : RefreshSummary).failed =
      (getFeedsToRefresh 0 ["A"] [neverFetchedFeedDoc]).length :=
  (prepare_collects_failures 0 (fun _ => .error ("network timeout"))
    (pureIngest 0) { feedIds := ["A"], startDate := 0, endDate := 10 }
    { rssFeeds := [neverFetchedFeedDoc], rssArticles := [] }).2.2.1
    { successful := 0, failed := 1 } (by decide)

/-- Claim C5: `prepareFeedsAndArticles` throws the terminal no-content
error exactly when the post-refresh article query for the requested feed
ids and date range is empty, and otherwise returns precisely that
non-empty query result — an empty article list is never returned as a
success. -/
theorem prepare_no_content_iff_empty (now : Int)
    (fetchOutcome : String → Except String (FeedMetadata × List ArticleCreateData))
    (ingest : IngestOp) (params : PrepareFeedsParams) (st : DbState) :
    ((prepareFeedsAndArticles now fetchOutcome ingest params st).1 =
        .error noContentMessage ↔
      getArticlesByFeedsAndDateRange
        (prepareFeedsAndArticles now fetchOutcome ingest params st).2.1
        params.feedIds params.startDate params.endDate ARTICLE_LIMIT =
        []) ∧
    (∀ l, (prepareFeedsAndArticles now fetchOutcome ingest params st).1 =
        .ok l →
      l ≠ [] ∧
      l = getArticlesByFeedsAndDateRange
        (prepareFeedsAndArticles now fetchOutcome ingest params st).2.1
        params.feedIds params.startDate params.endDate ARTICLE_LIMIT) := by
  simp only [prepareFeedsAndArticles]
  split <;> split
  · rename_i h0
    refine ⟨⟨fun _ => List.length_eq_zero.mp h0, fun _ => rfl⟩, ?_⟩
    intro l hl
    simp at hl
  · rename_i h0
    refine ⟨⟨fun hl => ?_, fun hemp => ?_⟩, fun l hl => ?_⟩
    · simp at hl
    · exact absurd (by rw [hemp]; rfl) h0
    · injection hl with hl
      subst hl
      exact ⟨fun hnil => h0 (by rw [hnil]; rfl), rfl⟩
  · rename_i h0
    refine ⟨⟨fun _ => List.length_eq_zero.mp h0, fun _ => rfl⟩, ?_⟩
    intro l hl
    simp at hl
  · rename_i h0
    refine ⟨⟨fun hl => ?_, fun hemp => ?_⟩, fun l hl => ?_⟩
    · simp at hl
    · exact absurd (by rw [hemp]; rfl) h0
    · injection hl with hl
      subst hl
      exact ⟨fun hnil => h0 (by rw [hnil]; rfl), rfl⟩

/-- Claim C5 witness: with one fresh feed and one stored article in
range, `prepareFeedsAndArticles` returns exactly the non-empty query
result. -/
theorem prepare_no_content_iff_empty_witness :
    ([{ article := sampleStoredArticle, sourceCount := 1,
        feed := some sampleFreshFeedDoc }] : List ArticleWithFeed) ≠ [] ∧
    ([{ article := sampleStoredArticle, sourceCount := 1,
        feed := some sampleFreshFeedDoc }] : List ArticleWithFeed) =
      getArticlesByFeedsAndDateRange
        (prepareFeedsAndArticles 0 (fun _ => .error ("offline"))
          (pureIngest 0)
          { feedIds := ["A"], startDate := 0, endDate := 10 }
          { rssFeeds := [sampleFreshFeedDoc],
            rssArticles := [sampleStoredArticle] }).2.1
        ["A"] 0 10 ARTICLE_LIMIT :=
  (prepare_no_content_iff_empty 0 (fun _ => .error ("offline"))
    (pureIngest 0) { feedIds := ["A"], startDate := 0, endDate := 10 }
    { rssFeeds := [sampleFreshFeedDoc],
      rssArticles := [sampleStoredArticle] }).2
    [{ article := sampleStoredArticle, sourceCount := 1,
       feed := some sampleFreshFeedDoc }] (by decide)

end RssSpec
